import Mathlib

/-!
Verification of the faceted search controller of the gtm-search web UI.

The repository has two UI variants of the jobs search page:

* variant A: `apps/web_ui/src/app/jobs/page.tsx` (single-select dropdown
  facets, smart-match inference on the debounced text input, composite
  "City, State" location field, a skills facet, overlay-style merge of
  natural-language parse results);
* variant B: the unnamed source file `part_001` (multi-select checkbox
  facets, independent city/country fields, overwrite-all merge of
  natural-language parse results).

Both variants are embedded below, together with the pure pagination
windower shared (up to the page-size constant) by both variants and by
the companies page.

Strings are modelled with Lean `String`; the JavaScript string methods
`toLowerCase`, `trim` and `split(',')` used by the source are embedded as
executable functions over the underlying character lists, restricted to
the ASCII behaviour the source relies on.
-/

/-! ### JavaScript string primitives -/

/-- JS `String.prototype.toLowerCase`, ASCII fragment: lower-case every
character (`Char.toLower` maps exactly the letters `A`-`Z`). -/
def jsLower (s : String) : String :=
  ⟨s.data.map Char.toLower⟩

/-- Remove leading and trailing whitespace from a character list. -/
def trimChars (l : List Char) : List Char :=
  ((l.dropWhile Char.isWhitespace).reverse.dropWhile Char.isWhitespace).reverse

/-- JS `String.prototype.trim`: remove surrounding whitespace. -/
def jsTrim (s : String) : String :=
  ⟨trimChars s.data⟩

/-- JS `String.prototype.split(',')` on the character list: every comma is
a separator, adjacent separators yield empty components, and the empty
string yields one empty component. -/
def splitCommaChars : List Char → List (List Char)
  | [] => [[]]
  | c :: rest =>
    let r := splitCommaChars rest
    if c = ',' then [] :: r
    else
      match r with
      | [] => [[c]]
      | h :: t => (c :: h) :: t

/-- JS `location.split(',')`. -/
def jsSplitComma (s : String) : List String :=
  (splitCommaChars s.data).map fun l => ⟨l⟩

/-- Lower-casing a character does not change whether it is whitespace:
the letters `A`-`Z` and their images `a`-`z` are never whitespace, and
every other character is fixed by `Char.toLower`. -/
theorem isWhitespace_toLower (c : Char) :
    (Char.toLower c).isWhitespace = c.isWhitespace := by
  unfold Char.toLower
  by_cases h : c.toNat ≥ 65 ∧ c.toNat ≤ 90
  · rw [if_pos h]
    have hsp : (' ' : Char).toNat = 32 := by decide
    have htb : ('\t' : Char).toNat = 9 := by decide
    have hcr : ('\x0d' : Char).toNat = 13 := by decide
    have hnl : ('\n' : Char).toNat = 10 := by decide
    have hval : (Char.ofNat (c.toNat + 32)).toNat = c.toNat + 32 := by
      rw [Char.ofNat, dif_pos (Or.inl (by omega))]
      rfl
    have hlow : (Char.ofNat (c.toNat + 32)).isWhitespace = false := by
      simp only [Char.isWhitespace, Bool.or_eq_false_iff, decide_eq_false_iff_not]
      refine ⟨⟨⟨?_, ?_⟩, ?_⟩, ?_⟩ <;>
        · intro he
          have h2 := congrArg Char.toNat he
          rw [hval] at h2
          omega
    have hc : c.isWhitespace = false := by
      simp only [Char.isWhitespace, Bool.or_eq_false_iff, decide_eq_false_iff_not]
      refine ⟨⟨⟨?_, ?_⟩, ?_⟩, ?_⟩ <;>
        · intro he
          have h2 := congrArg Char.toNat he
          omega
    rw [hlow, hc]
  · rw [if_neg h]

/-- Trimming commutes with lower-casing on character lists. -/
theorem trimChars_map_toLower (l : List Char) :
    trimChars (l.map Char.toLower) = (trimChars l).map Char.toLower := by
  have hp : (Char.isWhitespace ∘ Char.toLower) = Char.isWhitespace := by
    funext c
    exact isWhitespace_toLower c
  unfold trimChars
  rw [List.dropWhile_map, hp, ← List.map_reverse, List.dropWhile_map, hp,
    ← List.map_reverse]

/-- The source normalises the search term with `toLowerCase().trim()`;
the specification says "trim, lower-case".  The two orders agree. -/
theorem jsTrim_jsLower (s : String) :
    jsTrim (jsLower s) = jsLower (jsTrim s) := by
  unfold jsTrim jsLower
  exact congrArg String.mk (trimChars_map_toLower s.data)

/-! ### Facet vocabularies (`FILTER_OPTIONS` in `jobs/page.tsx`) -/

/-- An entry of a facet vocabulary: display label and canonical value. -/
structure FacetOption where
  label : String
  value : String
deriving DecidableEq

/-- `FILTER_OPTIONS.seniority` from `jobs/page.tsx`. -/
def FILTER_OPTIONS_seniority : List FacetOption :=
  [⟨"Intern", "intern"⟩, ⟨"Junior", "junior"⟩, ⟨"Mid-Level", "mid"⟩,
   ⟨"Senior", "senior"⟩, ⟨"Staff", "staff"⟩, ⟨"Principal", "principal"⟩,
   ⟨"Manager", "manager"⟩, ⟨"Director", "director"⟩, ⟨"VP", "vp"⟩,
   ⟨"CXO", "cxo"⟩]

/-- `FILTER_OPTIONS.functions` from `jobs/page.tsx`. -/
def FILTER_OPTIONS_functions : List FacetOption :=
  [⟨"Engineering", "engineering"⟩, ⟨"Product Marketing", "product_marketing"⟩,
   ⟨"Sales Operations", "sales_ops"⟩, ⟨"Operations", "operations"⟩,
   ⟨"Solutions Engineering", "solutions_engineering"⟩, ⟨"HR", "hr"⟩,
   ⟨"Security", "security"⟩, ⟨"GTM Engineering", "gtm_engineering"⟩,
   ⟨"Customer Success", "customer_success"⟩, ⟨"Finance", "finance"⟩,
   ⟨"IT", "it"⟩, ⟨"Legal", "legal"⟩, ⟨"Data", "data"⟩, ⟨"RevOps", "revops"⟩,
   ⟨"Marketing", "marketing"⟩, ⟨"Sales", "sales"⟩]

/-- `FILTER_OPTIONS.remote` from `jobs/page.tsx`. -/
def FILTER_OPTIONS_remote : List FacetOption :=
  [⟨"Remote", "remote"⟩, ⟨"Hybrid", "hybrid"⟩, ⟨"On-site", "onsite"⟩]

/-! ### Filter state of variant A (`jobs/page.tsx`) -/

/-- A selected skill (`SkillSuggestion`); serialisation uses `name` only. -/
structure Skill where
  id : String
  name : String
deriving DecidableEq

/-- The state hooks of `JobsPageContent` in `jobs/page.tsx`.  `textSearch`
holds the settled (debounced) free-text value consumed by the smart-match
effect and the serializer; `jobs`/`total` are the displayed fetch results,
where `none` stands for the JS value `undefined`. -/
structure PageAState where
  jobs : Option (List Nat)
  total : Option Int
  loading : Bool
  page : Nat
  textSearch : String
  naturalQuery : String
  seniority : List String
  jobFunction : List String
  remoteType : List String
  location : String
  salaryMin : String
  salaryMax : String
  selectedSkills : List Skill
  isParsing : Bool
  parseExplanation : String
deriving DecidableEq

/-- `findMatch` from the smart-search effect: first option whose label or
value equals the term case-insensitively (`o.label.toLowerCase() === term
|| o.value.toLowerCase() === term`). -/
def findMatch (options : List FacetOption) (term : String) : Option FacetOption :=
  options.find? fun o => jsLower o.label == term || jsLower o.value == term

/-- The "Smart Search Logic" `useEffect` of `jobs/page.tsx`, as a function
of the settled debounced value: bail out on the empty string, normalise
with `toLowerCase().trim()`, test the function vocabulary, then
seniority, then work-arrangement; on the first hit replace that facet
with the singleton matched value and clear the text input, otherwise
leave the state as is. -/
def smartSearchStep (debouncedSearch : String) (st : PageAState) : PageAState :=
  if debouncedSearch == "" then st
  else
    let term := jsTrim (jsLower debouncedSearch)
    match findMatch FILTER_OPTIONS_functions term with
    | some m => { st with jobFunction := [m.value], textSearch := "" }
    | none =>
      match findMatch FILTER_OPTIONS_seniority term with
      | some m => { st with seniority := [m.value], textSearch := "" }
      | none =>
        match findMatch FILTER_OPTIONS_remote term with
        | some m => { st with remoteType := [m.value], textSearch := "" }
        | none => st

/-- The Smart-Match Inferencer as the specification words it: fire only on
a non-empty settled value, normalise the term (trim, lower-case), test
for an exact case-insensitive match against job-function, then seniority,
then work-arrangement; on the first match replace that facet's selection
with the single matched value, clear the free text, and stop; on no match
leave the state untouched. -/
def smartMatchSpec (value : String) (st : PageAState) : PageAState :=
  if value == "" then st
  else
    let term := jsLower (jsTrim value)
    match findMatch FILTER_OPTIONS_functions term with
    | some m => { st with jobFunction := [m.value], textSearch := "" }
    | none =>
      match findMatch FILTER_OPTIONS_seniority term with
      | some m => { st with seniority := [m.value], textSearch := "" }
      | none =>
        match findMatch FILTER_OPTIONS_remote term with
        | some m => { st with remoteType := [m.value], textSearch := "" }
        | none => st

/-- No vocabulary entry matches the empty term. -/
theorem findMatch_empty :
    findMatch FILTER_OPTIONS_functions "" = none ∧
    findMatch FILTER_OPTIONS_seniority "" = none ∧
    findMatch FILTER_OPTIONS_remote "" = none := by
  decide

/-- The state of `JobsPageContent` at mount: empty facets, page 1. -/
def initialStateA : PageAState :=
  { jobs := some [], total := some 0, loading := true, page := 1,
    textSearch := "", naturalQuery := "", seniority := [], jobFunction := [],
    remoteType := [], location := "", salaryMin := "", salaryMax := "",
    selectedSkills := [], isParsing := false, parseExplanation := "" }

/-- Claim C1: for every settled non-empty debounced text value, the
Smart-Match Inferencer behaves exactly as specified — normalise the term
(trim, lower-case), test the job-function, seniority and work-arrangement
vocabularies in that order for an exact case-insensitive label-or-value
match, on the first match replace that facet with the singleton matched
value and clear the free text, and on no match leave the state unchanged
— and its outcome depends only on the normalised term, hence is invariant
under input casing and surrounding whitespace. -/
theorem smartMatch_inferencer_correct :
    (∀ s st, smartSearchStep s st = smartMatchSpec s st) ∧
    (∀ s t st, jsTrim (jsLower s) = jsTrim (jsLower t) →
      smartSearchStep s st = smartSearchStep t st) := by
  have hempty : ∀ (t : String) (st : PageAState), jsTrim (jsLower t) = "" →
      smartSearchStep t st = st := by
    intro t st hterm
    unfold smartSearchStep
    by_cases ht : t == ""
    · rw [if_pos ht]
    · rw [if_neg ht]
      simp only [hterm, findMatch_empty.1, findMatch_empty.2.1, findMatch_empty.2.2]
  constructor
  · intro s st
    unfold smartSearchStep smartMatchSpec
    rw [jsTrim_jsLower]
  · intro s t st h
    by_cases hs : s == ""
    · have hs' : s = "" := by simpa using hs
      subst hs'
      have hterm : jsTrim (jsLower t) = "" := by
        rw [← h]
        decide
      rw [hempty t st hterm]
      unfold smartSearchStep
      rw [if_pos (by decide)]
    · by_cases ht : t == ""
      · have ht' : t = "" := by simpa using ht
        subst ht'
        have hterm : jsTrim (jsLower s) = "" := by
          rw [h]
          decide
        rw [hempty s st hterm]
        unfold smartSearchStep
        rw [if_pos (by decide)]
      · unfold smartSearchStep
        rw [if_neg hs, if_neg ht, h]

/-- Witness for claim C1 at a concrete input: `"  SENIOR "` and
`"senior"` normalise identically, so the inferencer treats them alike,
and on that input it selects the seniority facet and clears the text. -/
theorem smartMatch_inferencer_witness :
    jsTrim (jsLower "  SENIOR ") = jsTrim (jsLower "senior") ∧
    smartSearchStep "  SENIOR " initialStateA = smartSearchStep "senior" initialStateA ∧
    smartSearchStep "senior" initialStateA =
      { initialStateA with seniority := ["senior"], textSearch := "" } :=
  ⟨by decide,
   smartMatch_inferencer_correct.2 "  SENIOR " "senior" initialStateA (by decide),
   by decide⟩

/-! ### Pagination windower (IIFE in `jobs/page.tsx` and the companies page) -/

/-- The inclusive integer range `[a, b]` of page indices (empty when
`b < a`). -/
def pageRange (a b : Int) : List Nat :=
  (List.range (b - a + 1).toNat).map fun i => (a + Int.ofNat i).toNat

/-- `Math.ceil(total / pageSize)` for natural inputs. -/
def windowTotalPages (totalCount pageSize : Nat) : Nat :=
  (totalCount + pageSize - 1) / pageSize

/-- First-pass start of the window: `max(1, currentPage -
Math.floor(maxVisible / 2))` with `maxVisible = 5`. -/
def windowStart0 (currentPage : Nat) : Int :=
  max 1 ((currentPage : Int) - 2)

/-- End of the window: `min(totalPages, start + maxVisible - 1)`. -/
def windowEnd (currentPage totalCount pageSize : Nat) : Int :=
  min (windowTotalPages totalCount pageSize : Int) (windowStart0 currentPage + 5 - 1)

/-- Re-derived start: `max(1, end - maxVisible + 1)` when the window is
short of `maxVisible` entries, the first-pass start otherwise. -/
def windowStart (currentPage totalCount pageSize : Nat) : Int :=
  if windowEnd currentPage totalCount pageSize - windowStart0 currentPage + 1 < 5 then
    max 1 (windowEnd currentPage totalCount pageSize - 5 + 1)
  else windowStart0 currentPage

/-- The pagination-window IIFE of `jobs/page.tsx` (and, with page size 12,
of the companies page): `totalPages = Math.ceil(total / pageSize)`,
`start = max(1, page - Math.floor(maxVisible / 2))`, `end =
min(totalPages, start + maxVisible - 1)`, re-derive `start` when the
window is shorter than `maxVisible = 5`, and push a button for every `i`
from `start` to `end` inclusive. -/
def paginationWindow (currentPage totalCount pageSize : Nat) : List Nat :=
  pageRange (windowStart currentPage totalCount pageSize)
    (windowEnd currentPage totalCount pageSize)

/-- Claim C2: for every `currentPage ≥ 1`, `totalCount ≥ 0` and
`pageSize ≥ 1` (with `maxVisible = 5`), the windower emits exactly the
inclusive range from the re-derived start to the end computed by the
specified formulas; it emits `[1, totalPages]` whenever
`totalPages < 5`, the empty sequence when `totalCount = 0`, and
`window(7, 400, 20, 5) = [5, 6, 7, 8, 9]`. -/
theorem pagination_window_correct :
    (∀ c t p : Nat, paginationWindow c t p =
      pageRange (windowStart c t p) (windowEnd c t p)) ∧
    (∀ c t p : Nat, 1 ≤ c → 1 ≤ p → windowTotalPages t p < 5 →
      paginationWindow c t p = pageRange 1 (windowTotalPages t p)) ∧
    (∀ c p : Nat, 1 ≤ c → 1 ≤ p → paginationWindow c 0 p = []) ∧
    paginationWindow 7 400 20 = [5, 6, 7, 8, 9] := by
  have hshort : ∀ c t p : Nat, 1 ≤ c → windowTotalPages t p < 5 →
      windowStart c t p = 1 ∧ windowEnd c t p = (windowTotalPages t p : Int) := by
    intro c t p hc htp
    have h0 : windowStart0 c = max 1 ((c : Int) - 2) := rfl
    have hend : windowEnd c t p =
        min (windowTotalPages t p : Int) (windowStart0 c + 5 - 1) := rfl
    unfold windowStart
    constructor
    · rw [hend, h0]
      split <;> omega
    · rw [hend, h0]
      omega
  refine ⟨fun c t p => rfl, ?_, ?_, by decide⟩
  · intro c t p hc hp htp
    obtain ⟨hs, he⟩ := hshort c t p hc htp
    unfold paginationWindow
    rw [hs, he]
  · intro c p hc hp
    have htp : windowTotalPages 0 p = 0 := by
      unfold windowTotalPages
      apply Nat.div_eq_of_lt
      omega
    obtain ⟨hs, he⟩ := hshort c 0 p hc (by omega)
    unfold paginationWindow
    rw [hs, he, htp]
    decide

/-- Witness for claim C2 at `window(1, 37, 20, 5)`: two total pages, so
the whole range `[1, 2]` is emitted. -/
theorem pagination_window_witness :
    (1 : Nat) ≤ 1 ∧ (1 : Nat) ≤ 20 ∧ windowTotalPages 37 20 < 5 ∧
    paginationWindow 1 37 20 = pageRange 1 (windowTotalPages 37 20) ∧
    pageRange 1 (windowTotalPages 37 20) = [1, 2] :=
  ⟨by decide, by decide, by decide,
   pagination_window_correct.2.1 1 37 20 (by decide) (by decide) (by decide),
   by decide⟩

/-! ### Query serializer (`fetchJobs` in both variants) -/

/-- Fuel-indexed digit emission never shortens its accumulator. -/
theorem toDigitsCore_length_le (b : Nat) :
    ∀ (f n : Nat) (ds : List Char), ds.length ≤ (Nat.toDigitsCore b f n ds).length := by
  intro f
  induction f with
  | zero =>
    intro n ds
    simp [Nat.toDigitsCore]
  | succ f ih =>
    intro n ds
    simp only [Nat.toDigitsCore]
    split
    · simp
    · exact le_trans (by simp) (ih _ _)

/-- `String(page)` / `page.toString()` is never the empty string. -/
theorem Nat_repr_ne_empty (n : Nat) : Nat.repr n ≠ "" := by
  intro h
  have h2 : Nat.toDigits 10 n = [] := by
    have h3 := congrArg String.data h
    simpa [Nat.repr, List.asString] using h3
  unfold Nat.toDigits at h2
  have h4 := toDigitsCore_length_le 10 n (n / 10) [Nat.digitChar (n % 10)]
  simp only [Nat.toDigitsCore] at h2
  split at h2
  · exact absurd h2 (by simp)
  · rw [h2] at h4
    simp at h4

/-- `if (v) params.set(key, v)`: one parameter when the value is a
non-empty string, nothing otherwise. -/
def nonEmptyParam (key v : String) : List (String × String) :=
  if v == "" then [] else [(key, v)]

/-- The composite-location handling inside `fetchJobs` of `jobs/page.tsx`:
`location.split(',')`, trim every part, destructure the first two parts
as city and state (a missing second part is `undefined`, hence falsy),
and emit each only when truthy. -/
def locationParams (location : String) : List (String × String) :=
  if location == "" then []
  else
    let parts := (jsSplitComma location).map jsTrim
    nonEmptyParam "city" (parts.headD "") ++ nonEmptyParam "state" ((parts[1]?).getD "")

/-- The full parameter list built by `fetchJobs` in `jobs/page.tsx`, in
insertion order (`URLSearchParams` keeps it): `page` and `page_size`
always, `q` for a non-empty settled search text, one occurrence per
facet-set element, salary bounds when non-empty, the location split, and
one `skill` per selected skill name. -/
def fetchJobsParams (st : PageAState) : List (String × String) :=
  [("page", Nat.repr st.page), ("page_size", "20")] ++
  nonEmptyParam "q" st.textSearch ++
  st.seniority.map (fun v => ("seniority", v)) ++
  st.jobFunction.map (fun v => ("function", v)) ++
  st.remoteType.map (fun v => ("remote_type", v)) ++
  nonEmptyParam "salary_min" st.salaryMin ++
  nonEmptyParam "salary_max" st.salaryMax ++
  locationParams st.location ++
  st.selectedSkills.map (fun s => ("skill", s.name))

/-! ### Filter state of variant B (`part_001`) -/

/-- The state hooks of the `part_001` jobs page (multi-select variant,
independent city/country location fields, `pageSize = 20`). -/
structure PageBState where
  jobs : Option (List Nat)
  total : Option Int
  page : Nat
  loading : Bool
  parsing : Bool
  naturalQuery : String
  parseExplanation : String
  textSearch : String
  seniority : List String
  jobFunction : List String
  remoteType : List String
  salaryMin : String
  salaryMax : String
  city : String
  country : String
deriving DecidableEq

/-- The parameter list built by `fetchJobs` in `part_001`: identical to
variant A except that city and country are independent fields and there
is no skills facet. -/
def fetchJobsParamsB (st : PageBState) : List (String × String) :=
  [("page", Nat.repr st.page), ("page_size", Nat.repr 20)] ++
  nonEmptyParam "q" st.textSearch ++
  st.seniority.map (fun v => ("seniority", v)) ++
  st.jobFunction.map (fun v => ("function", v)) ++
  st.remoteType.map (fun v => ("remote_type", v)) ++
  nonEmptyParam "salary_min" st.salaryMin ++
  nonEmptyParam "salary_max" st.salaryMax ++
  nonEmptyParam "city" st.city ++
  nonEmptyParam "country" st.country

/-- The occurrences of one key in a parameter list. -/
def keyParams (k : String) (ps : List (String × String)) : List (String × String) :=
  ps.filter fun kv => kv.1 == k

/-- `keyParams` on the empty parameter list. -/
theorem keyParams_nil (k : String) : keyParams k [] = [] := rfl

/-- `keyParams` on a cons cell. -/
theorem keyParams_cons (k2 : String) (kv : String × String)
    (ps : List (String × String)) :
    keyParams k2 (kv :: ps) =
      (if kv.1 == k2 then [kv] else []) ++ keyParams k2 ps := by
  unfold keyParams
  cases hb : (kv.1 == k2) <;> simp [List.filter, hb]

/-- `keyParams` distributes over concatenation. -/
theorem keyParams_append (k : String) (a b : List (String × String)) :
    keyParams k (a ++ b) = keyParams k a ++ keyParams k b := by
  unfold keyParams
  rw [List.filter_append]

/-- `keyParams` on a homogeneous-key map segment. -/
theorem keyParams_map (k k2 : String) {α : Type} (g : α → String) (l : List α) :
    keyParams k2 (l.map fun x => (k, g x)) =
      if k == k2 then l.map (fun x => (k, g x)) else [] := by
  unfold keyParams
  cases hb : (k == k2)
  · simp only [hb, Bool.false_eq_true, if_false]
    refine List.filter_eq_nil_iff.2 ?_
    intro kv hkv
    obtain ⟨x, hx, rfl⟩ := List.mem_map.1 hkv
    simp [hb]
  · simp only [hb, if_true]
    refine List.filter_eq_self.2 ?_
    intro kv hkv
    obtain ⟨x, hx, rfl⟩ := List.mem_map.1 hkv
    simpa using hb

/-- `keyParams` on a facet-set map segment. -/
theorem keyParams_map_id (k k2 : String) (l : List String) :
    keyParams k2 (l.map fun v => (k, v)) =
      if k == k2 then l.map (fun v => (k, v)) else [] :=
  keyParams_map k k2 id l

/-- `keyParams` on a guarded single-parameter segment. -/
theorem keyParams_nonEmptyParam (k k2 v : String) :
    keyParams k2 (nonEmptyParam k v) =
      if k == k2 then nonEmptyParam k v else [] := by
  unfold nonEmptyParam keyParams
  cases hv : (v == "") <;> cases hb : (k == k2) <;>
    simp [hv, hb, List.filter]

/-- `keyParams` on an explicit pair. -/
theorem keyParams_single (k k2 v : String) :
    keyParams k2 [(k, v)] = if k == k2 then [(k, v)] else [] := by
  unfold keyParams
  cases hb : (k == k2) <;> simp [hb, List.filter]

/-- The location segment only carries the `city` and `state` keys. -/
theorem keyParams_locationParams (k : String) (loc : String)
    (hc : ("city" == k) = false) (hs : ("state" == k) = false) :
    keyParams k (locationParams loc) = [] := by
  unfold locationParams
  split
  · simp [keyParams]
  · rw [keyParams_append, keyParams_nonEmptyParam, keyParams_nonEmptyParam, hc, hs]
    simp

/-- Every value emitted by a guarded segment is non-empty. -/
theorem nonEmptyParam_vals (k v : String) :
    ∀ kv ∈ nonEmptyParam k v, kv.2 ≠ "" := by
  unfold nonEmptyParam
  split <;> rename_i h <;> intro kv hkv
  · simp at hkv
  · simp at hkv
    subst hkv
    simpa using h

/-- Every value emitted by the location segment is non-empty. -/
theorem locationParams_vals (loc : String) :
    ∀ kv ∈ locationParams loc, kv.2 ≠ "" := by
  unfold locationParams
  split
  · simp
  · intro kv hkv
    rcases List.mem_append.1 hkv with h | h
    · exact nonEmptyParam_vals _ _ kv h
    · exact nonEmptyParam_vals _ _ kv h

/-- Claim C5: for every filter state (facet selections drawn from the
vocabularies, hence non-empty strings, and skills with non-empty names),
both serializers always emit the page and page-size parameters, emit `q`
only when the free-text value is non-empty, emit the salary bounds only
when present, emit one occurrence per facet-set element in selection
order, emit one `skill` parameter per selected skill's name, and emit no
parameter with an empty value. -/
theorem query_serializer_correct (sa : PageAState) (sb : PageBState)
    (hsen : ∀ v ∈ sa.seniority, v ≠ "")
    (hfun : ∀ v ∈ sa.jobFunction, v ≠ "")
    (hrem : ∀ v ∈ sa.remoteType, v ≠ "")
    (hskill : ∀ s ∈ sa.selectedSkills, s.name ≠ "")
    (hsenB : ∀ v ∈ sb.seniority, v ≠ "")
    (hfunB : ∀ v ∈ sb.jobFunction, v ≠ "")
    (hremB : ∀ v ∈ sb.remoteType, v ≠ "") :
    keyParams "page" (fetchJobsParams sa) = [("page", Nat.repr sa.page)] ∧
    keyParams "page_size" (fetchJobsParams sa) = [("page_size", "20")] ∧
    keyParams "q" (fetchJobsParams sa) = nonEmptyParam "q" sa.textSearch ∧
    keyParams "salary_min" (fetchJobsParams sa) = nonEmptyParam "salary_min" sa.salaryMin ∧
    keyParams "salary_max" (fetchJobsParams sa) = nonEmptyParam "salary_max" sa.salaryMax ∧
    keyParams "seniority" (fetchJobsParams sa) = sa.seniority.map (fun v => ("seniority", v)) ∧
    keyParams "function" (fetchJobsParams sa) = sa.jobFunction.map (fun v => ("function", v)) ∧
    keyParams "remote_type" (fetchJobsParams sa) = sa.remoteType.map (fun v => ("remote_type", v)) ∧
    keyParams "skill" (fetchJobsParams sa) = sa.selectedSkills.map (fun s => ("skill", s.name)) ∧
    (∀ kv ∈ fetchJobsParams sa, kv.2 ≠ "") ∧
    keyParams "page" (fetchJobsParamsB sb) = [("page", Nat.repr sb.page)] ∧
    keyParams "page_size" (fetchJobsParamsB sb) = [("page_size", Nat.repr 20)] ∧
    keyParams "q" (fetchJobsParamsB sb) = nonEmptyParam "q" sb.textSearch ∧
    keyParams "seniority" (fetchJobsParamsB sb) = sb.seniority.map (fun v => ("seniority", v)) ∧
    keyParams "function" (fetchJobsParamsB sb) = sb.jobFunction.map (fun v => ("function", v)) ∧
    keyParams "remote_type" (fetchJobsParamsB sb) = sb.remoteType.map (fun v => ("remote_type", v)) ∧
    keyParams "salary_min" (fetchJobsParamsB sb) = nonEmptyParam "salary_min" sb.salaryMin ∧
    keyParams "salary_max" (fetchJobsParamsB sb) = nonEmptyParam "salary_max" sb.salaryMax ∧
    (∀ kv ∈ fetchJobsParamsB sb, kv.2 ≠ "") := by
  have hvalsA : ∀ kv ∈ fetchJobsParams sa, kv.2 ≠ "" := by
    intro kv hkv
    unfold fetchJobsParams at hkv
    simp only [List.append_assoc, List.mem_append] at hkv
    rcases hkv with h | h | h | h | h | h | h | h | h
    · simp only [List.mem_cons, List.mem_singleton] at h
      rcases h with h | h | h
      · rw [h]
        exact Nat_repr_ne_empty sa.page
      · rw [h]
        decide
      · simp at h
    · exact nonEmptyParam_vals _ _ kv h
    · obtain ⟨x, hx, rfl⟩ := List.mem_map.1 h
      exact hsen x hx
    · obtain ⟨x, hx, rfl⟩ := List.mem_map.1 h
      exact hfun x hx
    · obtain ⟨x, hx, rfl⟩ := List.mem_map.1 h
      exact hrem x hx
    · exact nonEmptyParam_vals _ _ kv h
    · exact nonEmptyParam_vals _ _ kv h
    · exact locationParams_vals _ kv h
    · obtain ⟨x, hx, rfl⟩ := List.mem_map.1 h
      exact hskill x hx
  have hvalsB : ∀ kv ∈ fetchJobsParamsB sb, kv.2 ≠ "" := by
    intro kv hkv
    unfold fetchJobsParamsB at hkv
    simp only [List.append_assoc, List.mem_append] at hkv
    rcases hkv with h | h | h | h | h | h | h | h | h
    · simp only [List.mem_cons, List.mem_singleton] at h
      rcases h with h | h | h
      · rw [h]
        exact Nat_repr_ne_empty sb.page
      · rw [h]
        decide
      · simp at h
    · exact nonEmptyParam_vals _ _ kv h
    · obtain ⟨x, hx, rfl⟩ := List.mem_map.1 h
      exact hsenB x hx
    · obtain ⟨x, hx, rfl⟩ := List.mem_map.1 h
      exact hfunB x hx
    · obtain ⟨x, hx, rfl⟩ := List.mem_map.1 h
      exact hremB x hx
    · exact nonEmptyParam_vals _ _ kv h
    · exact nonEmptyParam_vals _ _ kv h
    · exact nonEmptyParam_vals _ _ kv h
    · exact nonEmptyParam_vals _ _ kv h
  refine ⟨?_, ?_, ?_, ?_, ?_, ?_, ?_, ?_, ?_, hvalsA,
          ?_, ?_, ?_, ?_, ?_, ?_, ?_, ?_, hvalsB⟩ <;>
    first
    | (unfold fetchJobsParams
       simp [keyParams_append, keyParams_cons, keyParams_nil, keyParams_map,
         keyParams_map_id, keyParams_nonEmptyParam, keyParams_locationParams])
    | (unfold fetchJobsParamsB
       simp [keyParams_append, keyParams_cons, keyParams_nil, keyParams_map,
         keyParams_map_id, keyParams_nonEmptyParam, keyParams_locationParams])

/-- Witness for claim C5 at a concrete state: skills `[SQL]`, seniority
`[senior]`, page 3 — the parameter list contains `skill=SQL`,
`seniority=senior`, `page=3` and no other facet keys. -/
theorem query_serializer_witness :
    keyParams "skill"
        (fetchJobsParams
          { initialStateA with
              selectedSkills := [⟨"1", "SQL"⟩], seniority := ["senior"], page := 3 }) =
      [("skill", "SQL")] ∧
    keyParams "seniority"
        (fetchJobsParams
          { initialStateA with
              selectedSkills := [⟨"1", "SQL"⟩], seniority := ["senior"], page := 3 }) =
      [("seniority", "senior")] ∧
    keyParams "page"
        (fetchJobsParams
          { initialStateA with
              selectedSkills := [⟨"1", "SQL"⟩], seniority := ["senior"], page := 3 }) =
      [("page", "3")] := by
  have h := query_serializer_correct
    { initialStateA with
        selectedSkills := [⟨"1", "SQL"⟩], seniority := ["senior"], page := 3 }
    { jobs := some [], total := some 0, page := 1, loading := true,
      parsing := false, naturalQuery := "", parseExplanation := "",
      textSearch := "", seniority := [], jobFunction := [], remoteType := [],
      salaryMin := "", salaryMax := "", city := "", country := "" }
    (by decide) (by decide) (by decide) (by decide)
    (by decide) (by decide) (by decide)
  refine ⟨?_, ?_, ?_⟩
  · rw [h.2.2.2.2.2.2.2.2.1]
    decide
  · rw [h.2.2.2.2.2.1]
    decide
  · rw [h.1]
    decide

/-! ### Location handling (claim C6) -/

/-- Split a character list at the FIRST comma only: the part before it,
and (when a comma exists) the whole remainder after it. -/
def breakAtComma : List Char → List Char × Option (List Char)
  | [] => ([], none)
  | c :: rest =>
    if c = ',' then ([], some rest)
    else
      let r := breakAtComma rest
      (c :: r.1, r.2)

/-- The location serialisation as claim C6 words it: split the composite
string on the FIRST comma, trim both parts, and emit `city` only if the
first part is non-empty and `state` only if the second part is non-empty
after trim. -/
def locationParamsFirstComma (location : String) : List (String × String) :=
  if location == "" then []
  else
    let b := breakAtComma location.data
    nonEmptyParam "city" (jsTrim ⟨b.1⟩) ++
    (match b.2 with
     | none => []
     | some rest => nonEmptyParam "state" (jsTrim ⟨rest⟩))

/-- The amended location behaviour: split on EVERY comma, trim the
components, use the first component as city and the second component
(the text between the first and second commas) as state, and emit each
only when it exists and is non-empty; any components after the second
are discarded. -/
def locationParamsAmended (location : String) : List (String × String) :=
  if location == "" then []
  else
    let comps := (jsSplitComma location).map jsTrim
    (if comps.headD "" == "" then [] else [("city", comps.headD "")]) ++
    (match comps[1]? with
     | none => []
     | some s2 => if s2 == "" then [] else [("state", s2)])

/-- Counterexample to claim C6: on `"San Francisco, CA, USA"` the code
emits `state=CA` (the part between the first and second commas), whereas
a first-comma split would emit `state=CA, USA`. -/
theorem location_split_counterexample :
    locationParams "San Francisco, CA, USA" =
      [("city", "San Francisco"), ("state", "CA")] ∧
    locationParamsFirstComma "San Francisco, CA, USA" =
      [("city", "San Francisco"), ("state", "CA, USA")] ∧
    locationParams "San Francisco, CA, USA" ≠
      locationParamsFirstComma "San Francisco, CA, USA" := by
  refine ⟨by decide, by decide, by decide⟩

/-- Claim C6 as amended: the composite serializer splits on every comma,
keeps the first two trimmed components, and emits `city`/`state` exactly
when the respective component exists and is non-empty; the independent
city/country variant emits each field exactly when non-empty. -/
theorem location_split_amended :
    (∀ loc, locationParams loc = locationParamsAmended loc) ∧
    (∀ st : PageBState, keyParams "city" (fetchJobsParamsB st) =
      nonEmptyParam "city" st.city) ∧
    (∀ st : PageBState, keyParams "country" (fetchJobsParamsB st) =
      nonEmptyParam "country" st.country) := by
  refine ⟨?_, ?_, ?_⟩
  · intro loc
    unfold locationParams locationParamsAmended nonEmptyParam
    cases hloc : (loc == "")
    · simp only [Bool.false_eq_true, if_false]
      cases h1 : ((jsSplitComma loc).map jsTrim)[1]? <;>
        simp [h1, Option.getD]
    · simp
  · intro st
    unfold fetchJobsParamsB
    simp [keyParams_append, keyParams_cons, keyParams_nil, keyParams_map,
      keyParams_map_id, keyParams_nonEmptyParam]
  · intro st
    unfold fetchJobsParamsB
    simp [keyParams_append, keyParams_cons, keyParams_nil, keyParams_map,
      keyParams_map_id, keyParams_nonEmptyParam]

/-! ### Natural-language merge engine (`handleNaturalSearch`, both variants) -/

/-- JS truthiness of an optional list accessed as `xs?.length`: truthy
exactly when the field is present and non-empty. -/
def listFieldTruthy (o : Option (List String)) : Bool :=
  match o with
  | none => false
  | some l => !l.isEmpty

/-- JS truthiness of an optional string field: truthy exactly when
present and non-empty. -/
def strFieldTruthy (o : Option String) : Bool :=
  match o with
  | none => false
  | some s => s != ""

/-- JS truthiness of an optional numeric field: truthy exactly when
present and non-zero. -/
def intFieldTruthy (o : Option Int) : Bool :=
  match o with
  | none => false
  | some v => v != 0

/-- The `ParsedFilters` shape consumed by `part_001`; every field is
optional because the parser is a best-effort classifier. -/
structure ParsedFiltersB where
  q : Option String := none
  seniority : Option (List String) := none
  job_function : Option (List String) := none
  remote_type : Option (List String) := none
  city : Option String := none
  state : Option String := none
  country : Option String := none
  salary_min : Option Int := none
  salary_max : Option Int := none
  company : Option String := none
deriving DecidableEq

/-- A decoded `/search/parse` response body for variant B; `filters` is
`none` when the JSON body has no `filters` object (for example the
`detail` body FastAPI sends with a non-2xx status). -/
structure ParseRespB where
  filters : Option ParsedFiltersB
  explanation : Option String
deriving DecidableEq

/-- Outcome of the parse request in variant B, which never inspects
`res.ok`: either the fetch or `res.json()` threw, or a decoded body. -/
inductive ParseOutcomeB where
  | fetchError : ParseOutcomeB
  | ok : ParseRespB → ParseOutcomeB
deriving DecidableEq

/-- `handleNaturalSearch` of `part_001` (overwrite-all policy): bail on a
blank utterance; on a thrown fetch/JSON error set the failure
explanation; otherwise CLEAR EVERY FILTER FIELD FIRST, then — if the
body has a `filters` object — route a bare `q` into the text search when
no structured field is truthy, apply each truthy structured field, store
the explanation (with a default), and reset the page to 1.  When the
body has no `filters` object the `filters.seniority` access throws after
the clearing has already happened, so the handler ends with every filter
cleared and the failure explanation set. -/
def handleNaturalSearchB (st : PageBState) (r : ParseOutcomeB) : PageBState :=
  if jsTrim st.naturalQuery == "" then st
  else
    let st0 := { st with parsing := true, parseExplanation := "" }
    match r with
    | .fetchError => { st0 with parseExplanation := "Failed to parse query", parsing := false }
    | .ok data =>
      let cleared := { st0 with
        textSearch := "", seniority := [], jobFunction := [], remoteType := [],
        salaryMin := "", salaryMax := "", city := "", country := "" }
      match data.filters with
      | none => { cleared with parseExplanation := "Failed to parse query", parsing := false }
      | some f =>
        let hasStructured :=
          listFieldTruthy f.seniority || listFieldTruthy f.job_function ||
          listFieldTruthy f.remote_type || intFieldTruthy f.salary_min ||
          intFieldTruthy f.salary_max || strFieldTruthy f.city ||
          strFieldTruthy f.country
        let s1 := if !hasStructured && strFieldTruthy f.q then
            { cleared with textSearch := f.q.getD "" } else cleared
        let s2 := if listFieldTruthy f.seniority then
            { s1 with seniority := f.seniority.getD [] } else s1
        let s3 := if listFieldTruthy f.job_function then
            { s2 with jobFunction := f.job_function.getD [] } else s2
        let s4 := if listFieldTruthy f.remote_type then
            { s3 with remoteType := f.remote_type.getD [] } else s3
        let s5 := if intFieldTruthy f.salary_min then
            { s4 with salaryMin := (f.salary_min.getD 0).repr } else s4
        let s6 := if intFieldTruthy f.salary_max then
            { s5 with salaryMax := (f.salary_max.getD 0).repr } else s5
        let s7 := if strFieldTruthy f.city then
            { s6 with city := f.city.getD "" } else s6
        let s8 := if strFieldTruthy f.country then
            { s7 with country := f.country.getD "" } else s7
        { s8 with
          parseExplanation :=
            match data.explanation with
            | none => "Query parsed successfully"
            | some e => if e == "" then "Query parsed successfully" else e,
          page := 1, parsing := false }

/-- The `ParsedFilters` shape consumed by `jobs/page.tsx`. -/
structure ParsedFiltersA where
  seniority : Option (List String) := none
  job_function : Option (List String) := none
  remote_type : Option (List String) := none
  salary_min : Option Int := none
  location_city : Option String := none
  location_state : Option String := none
deriving DecidableEq

/-- A decoded `/search/parse` response body for variant A. -/
structure ParseRespA where
  filters : Option ParsedFiltersA
  explanation : String
deriving DecidableEq

/-- Outcome of the parse request in variant A, which checks `res.ok`:
a thrown network error, or a response with its status flag and (when
`res.json()` succeeds) a decoded body. -/
inductive ParseOutcomeA where
  | fetchError : ParseOutcomeA
  | response : Bool → Option ParseRespA → ParseOutcomeA
deriving DecidableEq

/-- `handleNaturalSearch` of `jobs/page.tsx` (overlay policy): bail on a
blank utterance; only an `ok` response with a decodable body is applied;
each truthy field overlays the existing state; a city-and-state pair
becomes the composite location, a lone known city is routed into the
text search; the explanation is stored.  The page is never touched, and
on failure no explanation is stored (it stays cleared). -/
def handleNaturalSearchA (st : PageAState) (r : ParseOutcomeA) : PageAState :=
  if jsTrim st.naturalQuery == "" then st
  else
    let st0 := { st with isParsing := true, parseExplanation := "" }
    match r with
    | .fetchError => { st0 with isParsing := false }
    | .response ok body =>
      if ok then
        match body with
        | none => { st0 with isParsing := false }
        | some data =>
          match data.filters with
          | none => { st0 with isParsing := false }
          | some f =>
            let s1 := if listFieldTruthy f.seniority then
                { st0 with seniority := f.seniority.getD [] } else st0
            let s2 := if listFieldTruthy f.job_function then
                { s1 with jobFunction := f.job_function.getD [] } else s1
            let s3 := if listFieldTruthy f.remote_type then
                { s2 with remoteType := f.remote_type.getD [] } else s2
            let s4 := if intFieldTruthy f.salary_min then
                { s3 with salaryMin := (f.salary_min.getD 0).repr } else s3
            let s5 :=
              if strFieldTruthy f.location_city && strFieldTruthy f.location_state then
                { s4 with location := f.location_city.getD "" ++ ", " ++ f.location_state.getD "" }
              else if strFieldTruthy f.location_city && (f.location_city.getD "" != "Unknown") then
                { s4 with textSearch := f.location_city.getD "" }
              else s4
            { s5 with parseExplanation := data.explanation, isParsing := false }
      else { st0 with isParsing := false }

/-- A variant-B session mid-use: a seniority facet and a salary bound are
selected and a natural-language utterance has been typed. -/
def exampleStateB : PageBState :=
  { jobs := some [], total := some 0, page := 5, loading := false,
    parsing := false, naturalQuery := "remote roles in nyc",
    parseExplanation := "", textSearch := "", seniority := ["senior"],
    jobFunction := [], remoteType := [], salaryMin := "150000",
    salaryMax := "", city := "", country := "" }

/-- Claim C3 at its failing input: `part_001` receives a non-2xx response
whose JSON body (a FastAPI `detail` object) has no `filters` field.  The
handler has already cleared every filter field before the
`filters.seniority` access throws, so the prior seniority selection and
salary bound are wiped instead of being left untouched; the failure
explanation is displayed.  The thrown-fetch path, by contrast, does
leave the filters alone. -/
theorem nl_merge_failure_clears_filters :
    (handleNaturalSearchB exampleStateB (.ok ⟨none, none⟩)).seniority = [] ∧
    (handleNaturalSearchB exampleStateB (.ok ⟨none, none⟩)).salaryMin = "" ∧
    exampleStateB.seniority = ["senior"] ∧
    exampleStateB.salaryMin = "150000" ∧
    (handleNaturalSearchB exampleStateB (.ok ⟨none, none⟩)).parseExplanation =
      "Failed to parse query" ∧
    handleNaturalSearchB exampleStateB (.ok ⟨none, none⟩) ≠ exampleStateB ∧
    (handleNaturalSearchB exampleStateB .fetchError).seniority = ["senior"] ∧
    (handleNaturalSearchB exampleStateB .fetchError).salaryMin = "150000" := by
  decide

/-- A successful parse proposal `{seniority: ["senior"]}` with an
explanation, in both response shapes. -/
def exampleRespB : ParseRespB :=
  { filters := some { seniority := some ["senior"] },
    explanation := some "Found senior roles" }

/-- The same proposal in the variant-A response shape. -/
def exampleRespA : ParseRespA :=
  { filters := some { seniority := some ["senior"] },
    explanation := "Found senior roles" }

/-- A variant-A session sitting on page 7 with an utterance typed. -/
def exampleStateA7 : PageAState :=
  { initialStateA with naturalQuery := "senior roles", page := 7 }

/-- Claim C4 at its failing input: the overwrite-all variant (`part_001`)
does reset the page to 1 and store the explanation after a successful
merge, but the overlay variant (`jobs/page.tsx`) stores the explanation
and leaves the page at 7 — it never resets the page. -/
theorem nl_merge_page_reset :
    (handleNaturalSearchB exampleStateB (.ok exampleRespB)).page = 1 ∧
    (handleNaturalSearchB exampleStateB (.ok exampleRespB)).parseExplanation =
      "Found senior roles" ∧
    (handleNaturalSearchA exampleStateA7 (.response true (some exampleRespA))).seniority =
      ["senior"] ∧
    (handleNaturalSearchA exampleStateA7 (.response true (some exampleRespA))).parseExplanation =
      "Found senior roles" ∧
    (handleNaturalSearchA exampleStateA7 (.response true (some exampleRespA))).page = 7 ∧
    ¬(handleNaturalSearchA exampleStateA7 (.response true (some exampleRespA))).page = 1 := by
  decide

/-! ### Fetch orchestrator (`fetchJobs` settle step, both variants) -/

/-- A decoded `/jobs` response body; `none` fields model absent JSON
fields (`undefined` in JS). -/
structure JobsBody where
  jobs : Option (List Nat)
  total : Option Int
deriving DecidableEq

/-- Outcome of one listing fetch: a thrown network error, or an HTTP
response with its `ok` flag and (when `res.json()` succeeds) a body. -/
inductive FetchOutcome where
  | networkError : FetchOutcome
  | response : Bool → Option JobsBody → FetchOutcome
deriving DecidableEq

/-- The settle step of `fetchJobs` in `jobs/page.tsx`: commit `data.jobs`
and `data.total` only when `res.ok` held and the body decoded; every
path ends with `setLoading(false)`. -/
def fetchJobsCommitA (st : PageAState) (r : FetchOutcome) : PageAState :=
  match r with
  | .networkError => { st with loading := false }
  | .response ok body =>
    if ok then
      match body with
      | none => { st with loading := false }
      | some b => { st with jobs := b.jobs, total := b.total, loading := false }
    else { st with loading := false }

/-- The settle step of `fetchJobs` in `part_001`: there is NO `res.ok`
check — any response whose body decodes is committed, whatever the
status; every path ends with `setLoading(false)`. -/
def fetchJobsCommitB (st : PageBState) (r : FetchOutcome) : PageBState :=
  match r with
  | .networkError => { st with loading := false }
  | .response _ body =>
    match body with
    | none => { st with loading := false }
    | some b => { st with jobs := b.jobs, total := b.total, loading := false }

/-- A variant-B session displaying results. -/
def exampleFetchStateB : PageBState :=
  { exampleStateB with jobs := some [1, 2], total := some 42, loading := true }

/-- A variant-A session displaying results. -/
def exampleFetchStateA : PageAState :=
  { initialStateA with jobs := some [1, 2], total := some 42, loading := true }

/-- Claim C7 at its failing input: a non-2xx response with a JSON body
(FastAPI sends `{"detail": ...}`, which has no `jobs`/`total`) makes
`part_001` commit `undefined` over the displayed jobs and total instead
of keeping them; `jobs/page.tsx`, which checks `res.ok`, keeps the
displayed results on the same input and on a network error, and both
variants do return `loading` to `false`. -/
theorem fetch_failure_keeps_display_violated :
    (fetchJobsCommitB exampleFetchStateB (.response false (some ⟨none, none⟩))).jobs = none ∧
    (fetchJobsCommitB exampleFetchStateB (.response false (some ⟨none, none⟩))).total = none ∧
    exampleFetchStateB.jobs = some [1, 2] ∧
    exampleFetchStateB.total = some 42 ∧
    (fetchJobsCommitB exampleFetchStateB (.response false (some ⟨none, none⟩))).loading = false ∧
    (fetchJobsCommitA exampleFetchStateA (.response false (some ⟨none, none⟩))).jobs =
      exampleFetchStateA.jobs ∧
    (fetchJobsCommitA exampleFetchStateA (.response false (some ⟨none, none⟩))).total =
      exampleFetchStateA.total ∧
    (fetchJobsCommitA exampleFetchStateA .networkError).jobs = exampleFetchStateA.jobs ∧
    (fetchJobsCommitA exampleFetchStateA .networkError).loading = false := by
  decide

/-- The older request's successful response. -/
def exampleOlderBody : JobsBody := ⟨some [1], some 100⟩

/-- The newer request's successful response. -/
def exampleNewerBody : JobsBody := ⟨some [2], some 200⟩

/-- Claim C9 at its failing input: two overlapping fetches both succeed;
the newer one resolves first, then the older one.  Each settle commits
unconditionally (there is no request sequence guard in either variant),
so folding the commits in arrival order leaves the OLDER request's jobs
and total on display, not the newer one's. -/
theorem last_request_wins_violated :
    (List.foldl fetchJobsCommitA exampleFetchStateA
        [.response true (some exampleNewerBody),
         .response true (some exampleOlderBody)]).jobs = some [1] ∧
    (List.foldl fetchJobsCommitA exampleFetchStateA
        [.response true (some exampleNewerBody),
         .response true (some exampleOlderBody)]).total = some 100 ∧
    exampleNewerBody.jobs = some [2] ∧
    exampleNewerBody.total = some 200 ∧
    ¬(List.foldl fetchJobsCommitA exampleFetchStateA
        [.response true (some exampleNewerBody),
         .response true (some exampleOlderBody)]).jobs = some [2] := by
  decide

/-! ### Pagination controls (Previous/Next/number buttons, both variants) -/

/-- The pagination-relevant slice of the page state: the current page and
the fetched total. -/
structure PagerState where
  page : Nat
  total : Nat
deriving DecidableEq

/-- User and system events that can change the page: the Previous and
Next buttons, a numbered window button, the many `setPage(1)` resets
(clear filters, facet toggles, text edits, successful merges), and a
fetch committing a new total. -/
inductive PagerAction where
  | prev : PagerAction
  | next : PagerAction
  | goto : Nat → PagerAction
  | reset : PagerAction
  | commitTotal : Nat → PagerAction
deriving DecidableEq

/-- The pagination controls of `jobs/page.tsx`: Previous is disabled at
`page === 1` and otherwise runs `setPage(p => p - 1)`; Next is disabled
at `page >= Math.ceil(total / 20)` and otherwise runs
`setPage(p => p + 1)` (a disabled button fires no click); a numbered
button exists exactly for the indices in the pagination window. -/
def pagerStepA (st : PagerState) (a : PagerAction) : PagerState :=
  match a with
  | .prev => if st.page = 1 then st else { st with page := st.page - 1 }
  | .next =>
    if windowTotalPages st.total 20 ≤ st.page then st
    else { st with page := st.page + 1 }
  | .goto i =>
    if i ∈ paginationWindow st.page st.total 20 then { st with page := i } else st
  | .reset => { st with page := 1 }
  | .commitTotal t => { st with total := t }

/-- The pagination controls of `part_001`: Previous is disabled at
`page <= 1` and otherwise runs `setPage(p => Math.max(1, p - 1))`; Next
is disabled at `page >= totalPages` and otherwise runs
`setPage(p => Math.min(totalPages, p + 1))`; there are no numbered
buttons. -/
def pagerStepB (st : PagerState) (a : PagerAction) : PagerState :=
  match a with
  | .prev => if st.page ≤ 1 then st else { st with page := max 1 (st.page - 1) }
  | .next =>
    if windowTotalPages st.total 20 ≤ st.page then st
    else { st with page := min (windowTotalPages st.total 20) (st.page + 1) }
  | .goto _ => st
  | .reset => { st with page := 1 }
  | .commitTotal t => { st with total := t }

/-- Every index that gets a numbered window button is at least 1. -/
theorem paginationWindow_pos (c t p i : Nat)
    (hi : i ∈ paginationWindow c t p) : 1 ≤ i := by
  unfold paginationWindow pageRange at hi
  obtain ⟨k, hk, rfl⟩ := List.mem_map.1 hi
  have h1 : (1 : Int) ≤ windowStart c t p := by
    unfold windowStart windowStart0 windowEnd
    split <;> omega
  simp only [Int.ofNat_eq_natCast]
  omega

/-- Claim C8: from the mount state (`page = 1`), every reachable state of
either variant's pagination controls has `page ≥ 1`, and an attempt to
move before page 1 (Previous at page 1) or past
`ceil(total / pageSize)` (Next at or beyond the last page) leaves the
state unchanged. -/
theorem page_bounds_invariant :
    (∀ acts : List PagerAction, 1 ≤ (acts.foldl pagerStepA ⟨1, 0⟩).page) ∧
    (∀ acts : List PagerAction, 1 ≤ (acts.foldl pagerStepB ⟨1, 0⟩).page) ∧
    (∀ st : PagerState, st.page = 1 → pagerStepA st .prev = st) ∧
    (∀ st : PagerState, windowTotalPages st.total 20 ≤ st.page →
      pagerStepA st .next = st) ∧
    (∀ st : PagerState, st.page ≤ 1 → pagerStepB st .prev = st) ∧
    (∀ st : PagerState, windowTotalPages st.total 20 ≤ st.page →
      pagerStepB st .next = st) := by
  have hstepA : ∀ st a, 1 ≤ st.page → 1 ≤ (pagerStepA st a).page := by
    intro st a h
    cases a with
    | prev =>
      simp only [pagerStepA]
      split
      · exact h
      · rename_i hp
        show 1 ≤ st.page - 1
        omega
    | next =>
      simp only [pagerStepA]
      split
      · exact h
      · show 1 ≤ st.page + 1
        omega
    | goto i =>
      simp only [pagerStepA]
      split
      · rename_i hi
        show 1 ≤ i
        exact paginationWindow_pos st.page st.total 20 i hi
      · exact h
    | reset => exact le_refl 1
    | commitTotal t => exact h
  have hstepB : ∀ st a, 1 ≤ st.page → 1 ≤ (pagerStepB st a).page := by
    intro st a h
    cases a with
    | prev =>
      simp only [pagerStepB]
      split
      · exact h
      · show 1 ≤ max 1 (st.page - 1)
        omega
    | next =>
      simp only [pagerStepB]
      split
      · exact h
      · rename_i hp
        show 1 ≤ min (windowTotalPages st.total 20) (st.page + 1)
        omega
    | goto i => exact h
    | reset => exact le_refl 1
    | commitTotal t => exact h
  have hfold : ∀ (step : PagerState → PagerAction → PagerState),
      (∀ st a, 1 ≤ st.page → 1 ≤ (step st a).page) →
      ∀ (acts : List PagerAction) (st : PagerState), 1 ≤ st.page →
        1 ≤ (acts.foldl step st).page := by
    intro step hstep acts
    induction acts with
    | nil => intro st h; simpa using h
    | cons a acts ih =>
      intro st h
      simpa using ih (step st a) (hstep st a h)
  refine ⟨fun acts => hfold pagerStepA hstepA acts ⟨1, 0⟩ (by decide),
          fun acts => hfold pagerStepB hstepB acts ⟨1, 0⟩ (by decide),
          ?_, ?_, ?_, ?_⟩
  · intro st h
    simp only [pagerStepA]
    rw [if_pos h]
  · intro st h
    simp only [pagerStepA]
    rw [if_pos h]
  · intro st h
    simp only [pagerStepB]
    rw [if_pos h]
  · intro st h
    simp only [pagerStepB]
    rw [if_pos h]

/-- Witness for claim C8 at concrete states: Previous at page 1 and Next
at the last of two pages (`total = 37`, `pageSize = 20`) are both
no-ops. -/
theorem page_bounds_witness :
    pagerStepA ⟨1, 37⟩ .prev = ⟨1, 37⟩ ∧
    pagerStepA ⟨2, 37⟩ .next = ⟨2, 37⟩ ∧
    pagerStepB ⟨1, 37⟩ .prev = ⟨1, 37⟩ ∧
    pagerStepB ⟨2, 37⟩ .next = ⟨2, 37⟩ :=
  ⟨page_bounds_invariant.2.2.1 ⟨1, 37⟩ (by decide),
   page_bounds_invariant.2.2.2.1 ⟨2, 37⟩ (by decide),
   page_bounds_invariant.2.2.2.2.1 ⟨1, 37⟩ (by decide),
   page_bounds_invariant.2.2.2.2.2 ⟨2, 37⟩ (by decide)⟩

/-! ### Multi-select facet toggle (`toggleFilter` in `part_001`) -/

/-- `toggleFilter` of `part_001`: when the value is already selected,
remove every occurrence (`current.filter(v => v !== value)`), otherwise
append it (`[...current, value]`); either way `setPage(1)`.  The result
is the new selection paired with the new page. -/
def toggleFilter (value : String) (current : List String) : List String × Nat :=
  if current.contains value then (current.filter (fun v => v != value), 1)
  else (current ++ [value], 1)

/-- Claim C10: in the multi-select variant, toggling a value twice yields
a selection with exactly the same members as the original (the value is
removed when present and appended when absent), and each toggle resets
the page to 1. -/
theorem toggleFilter_involution (v : String) (s : List String) :
    (∀ x, x ∈ (toggleFilter v (toggleFilter v s).1).1 ↔ x ∈ s) ∧
    (toggleFilter v s).2 = 1 ∧
    (toggleFilter v (toggleFilter v s).1).2 = 1 ∧
    (v ∈ s → (toggleFilter v s).1 = s.filter (fun x => x != v)) ∧
    (v ∉ s → (toggleFilter v s).1 = s ++ [v]) := by
  by_cases h : v ∈ s
  · have hc : s.contains v = true := by simpa using h
    have hfirst : (toggleFilter v s).1 = s.filter (fun x => x != v) := by
      simp only [toggleFilter]
      rw [if_pos hc]
    have hnot : ¬(s.filter (fun x => x != v)).contains v = true := by
      simp [List.mem_filter]
    have hsecond : (toggleFilter v (toggleFilter v s).1).1 =
        s.filter (fun x => x != v) ++ [v] := by
      rw [hfirst]
      simp only [toggleFilter]
      rw [if_neg hnot]
    refine ⟨?_, by simp only [toggleFilter]; rw [if_pos hc], ?_, fun _ => hfirst,
      fun hv => absurd h hv⟩
    · intro x
      rw [hsecond]
      simp only [List.mem_append, List.mem_filter, List.mem_singleton, bne_iff_ne,
        ne_eq]
      constructor
      · rintro (⟨hx, _⟩ | rfl)
        · exact hx
        · exact h
      · intro hx
        by_cases hxv : x = v
        · exact Or.inr hxv
        · exact Or.inl ⟨hx, hxv⟩
    · rw [hfirst]
      simp only [toggleFilter]
      rw [if_neg hnot]
  · have hc : ¬s.contains v = true := by simpa using h
    have hfirst : (toggleFilter v s).1 = s ++ [v] := by
      simp only [toggleFilter]
      rw [if_neg hc]
    have hmem : (s ++ [v]).contains v = true := by simp
    have hsecond : (toggleFilter v (toggleFilter v s).1).1 =
        (s ++ [v]).filter (fun x => x != v) := by
      rw [hfirst]
      simp only [toggleFilter]
      rw [if_pos hmem]
    have hfs : (s ++ [v]).filter (fun x => x != v) = s := by
      rw [List.filter_append]
      have h1 : s.filter (fun x => x != v) = s :=
        List.filter_eq_self.2 (fun x hx => by
          simp only [bne_iff_ne, ne_eq, decide_eq_true_eq]
          intro he
          exact h (he ▸ hx))
      have h2 : ([v].filter (fun x => x != v)) = [] := by simp
      rw [h1, h2, List.append_nil]
    refine ⟨?_, ?_, ?_, fun hv => absurd hv h, fun _ => hfirst⟩
    · intro x
      rw [hsecond, hfs]
    · simp only [toggleFilter]
      rw [if_neg hc]
    · rw [hfirst]
      simp only [toggleFilter]
      rw [if_pos hmem]

/-- Witness for claim C10 at a concrete selection: toggling `senior`
on `[mid]` appends it, and toggling twice restores the same members. -/
theorem toggleFilter_witness :
    ("senior" ∉ (["mid"] : List String)) ∧
    (toggleFilter "senior" ["mid"]).1 = ["mid"] ++ ["senior"] ∧
    ((toggleFilter "senior" (toggleFilter "senior" ["mid"]).1).1 = ["mid"]) :=
  ⟨by decide,
   (toggleFilter_involution "senior" ["mid"]).2.2.2.2 (by decide),
   by decide⟩
